import Mathlib

/-!
hellohttp2: a verification development of `main.go`.

A shallow embedding of the diagnostic HTTP server in `src/main.go`.

* Bytes are natural numbers below 256; a byte slice is a `List Nat`.
* Go's `int` is the 64-bit signed integer (`strconv.IntSize = 64`); it is an `Int`
  here and every place where the range matters carries the bound explicitly.
* Package-level variables (`random`, `sizeResponse`, `healthy`), the process
  environment and the files of the working directory form the `State` that is
  passed through every handler.
* A handler that panics is recorded as such (`Result.panicked`); `net/http`
  recovers the panic, drops the connection and keeps the process (and its
  package-level variables) alive.
* The body of a response is the sequence of bytes the handler hands to `Write`
  (what the client of a request other than `HEAD` receives).
* Memory is not a resource of the model: an allocation the Go runtime accepts
  succeeds.
* What the outside world decides during one call (failure of `os.OpenFile`, of
  `io.Copy`, the outcome of `url.Parse`, what the reverse proxy does to the
  response) is an explicit `Extern` argument.
* Standard output and wall-clock time are not part of the state.
-/

namespace HelloHttp

/-! ## Bytes and strings -/

/-- A Go byte slice `[]byte`. -/
abbrev Bytes := List Nat

/-- The conversion `[]byte(s)`: the UTF-8 bytes of the string. -/
def bytesOf (s : String) : Bytes := s.toUTF8.data.toList.map UInt8.toNat

/-! ## `net/http`: headers and the response writer -/

/-- A header map `http.Header`, restricted to the single-valued `Set`/`Get` use the
program makes of it.  Keys are kept in the spelling of the source; `net/http`
canonicalises the key on both `Set` and `Get`. -/
abbrev Header := List (String × String)

/-- The method `Header.Set`: replace every value of `key` by `value`. -/
def Header.Set (h : Header) (key value : String) : Header :=
  (key, value) :: h.filter (fun kv => kv.1 != key)

/-- The method `Header.Get`: first value of `key`, or `""`. -/
def Header.Get (h : Header) (key : String) : String :=
  match h.lookup key with
  | some v => v
  | none => ""

/-- The parsed query `url.Values`; `Get` returns the first value of the key, or `""`. -/
abbrev Values := List (String × String)

/-- The method `Values.Get`. -/
def Values.Get (v : Values) (key : String) : String :=
  match v.lookup key with
  | some s => s
  | none => ""

/-- The server side of `http.ResponseWriter` (`net/http.response`). -/
structure ResponseWriter where
  /-- The map returned by `w.Header()`. -/
  handlerHeader : Header
  /-- Whether `WriteHeader` has taken effect. -/
  wroteHeader : Bool
  /-- The status code that was sent. -/
  status : Nat
  /-- The snapshot of the header map taken when the status line was written. -/
  sentHeader : Header
  /-- The bytes accepted by `Write`. -/
  body : Bytes
deriving DecidableEq, Repr

/-- The writer handed to a handler for a new request. -/
def ResponseWriter.fresh : ResponseWriter :=
  { handlerHeader := [], wroteHeader := false, status := 0, sentHeader := [], body := [] }

/-- The call `w.Header().Set(key, value)`. -/
def ResponseWriter.SetHeader (w : ResponseWriter) (key value : String) : ResponseWriter :=
  { w with handlerHeader := w.handlerHeader.Set key value }

/-- The method `WriteHeader`: the first call fixes status and headers, later calls are
ignored (the server logs a superfluous call). -/
def ResponseWriter.WriteHeader (w : ResponseWriter) (code : Nat) : ResponseWriter :=
  if w.wroteHeader then w
  else { w with wroteHeader := true, status := code, sentHeader := w.handlerHeader }

/-- The check `bodyAllowedForStatus` of `net/http`. -/
def bodyAllowedForStatus (status : Nat) : Bool :=
  if 100 ≤ status ∧ status ≤ 199 then false
  else if status = 204 then false
  else if status = 304 then false
  else true

/-- The method `Write`: an implicit `WriteHeader(200)` when no status was written yet,
then the data is appended to the body when the status allows one. -/
def ResponseWriter.Write (w : ResponseWriter) (data : Bytes) : ResponseWriter :=
  let w := if w.wroteHeader then w else w.WriteHeader 200
  if data.length = 0 then w
  else if bodyAllowedForStatus w.status then { w with body := w.body ++ data }
  else w

/-- What `net/http` does when the handler returns without having written a status:
`finishRequest` sends `200`. -/
def ResponseWriter.finishRequest (w : ResponseWriter) : ResponseWriter :=
  if w.wroteHeader then w else w.WriteHeader 200

/-- The response a client receives: the status, the headers the handler had set when the
status was written (the server adds `Date`, `Content-Length` and `Content-Type` of its
own) and the body. -/
structure Response where
  status : Nat
  header : Header
  body : Bytes
deriving DecidableEq, Repr

/-! ## `strconv` -/

/-- The two errors of `strconv`. -/
inductive NumError where
  | ErrSyntax
  | ErrRange
deriving DecidableEq, Repr

/-- The value of a decimal digit character, `none` for every other character
(`d = c - '0'`, rejected when `d >= 10`). -/
def digitVal (c : Char) : Option Nat :=
  if 48 ≤ c.toNat ∧ c.toNat ≤ 57 then some (c.toNat - 48) else none

/-- The digit loop of `strconv.ParseUint(s, 10, 64)`: `n` is the value read so far.
`cutoff = maxUint64/10 + 1`; overflow returns `maxUint64` with `ErrRange`, a byte that
is no decimal digit returns `0` with `ErrSyntax`. -/
def ParseUintLoop : List Char → Nat → Nat × Option NumError
  | [], n => (n, none)
  | c :: cs, n =>
    match digitVal c with
    | none => (0, some NumError.ErrSyntax)
    | some d =>
      if n ≥ (2 ^ 64 - 1) / 10 + 1 then (2 ^ 64 - 1, some NumError.ErrRange)
      else
        let n1 := n * 10 + d
        if n1 > 2 ^ 64 - 1 then (2 ^ 64 - 1, some NumError.ErrRange)
        else ParseUintLoop cs n1

/-- The function `strconv.ParseUint(s, 10, 64)` on the characters of `s`. -/
def ParseUint (s : List Char) : Nat × Option NumError :=
  match s with
  | [] => (0, some NumError.ErrSyntax)
  | _ => ParseUintLoop s 0

/-- The function `strconv.ParseInt(s, 10, 64)` on the characters of `s`: optional sign,
then `ParseUint`; a syntax error returns `0`, a magnitude outside the signed range
returns the nearest bound with `ErrRange`. -/
def ParseInt (s : List Char) : Int × Option NumError :=
  match s with
  | [] => (0, some NumError.ErrSyntax)
  | c :: cs =>
    let neg := c == '-'
    let digits := if c == '+' || c == '-' then cs else c :: cs
    match ParseUint digits with
    | (_, some NumError.ErrSyntax) => (0, some NumError.ErrSyntax)
    | (un, _) =>
      if !neg && un ≥ 2 ^ 63 then ((2 : Int) ^ 63 - 1, some NumError.ErrRange)
      else if neg && un > 2 ^ 63 then (-(2 : Int) ^ 63, some NumError.ErrRange)
      else (if neg then -(un : Int) else (un : Int), none)

/-- The function `strconv.Atoi`: `ParseInt(s, 10, 0)` converted to `int`.  (The fast path
of `Atoi` for short strings computes the same result as `ParseInt`.) -/
def Atoi (s : String) : Int × Option NumError :=
  ParseInt s.toList

/-- The function `strconv.Itoa`. -/
def Itoa (i : Int) : String :=
  match i with
  | Int.ofNat n => Nat.repr n
  | Int.negSucc n => "-" ++ Nat.repr (n + 1)

/-! ## `time` -/

/-- The function `leadingInt` of package `time`: consumes the leading `[0-9]*`; `none` is
`errLeadingInt` (overflow). -/
def leadingInt : List Char → Nat → Option (Nat × List Char)
  | [], x => some (x, [])
  | c :: cs, x =>
    match digitVal c with
    | none => some (x, c :: cs)
    | some d =>
      if x > 2 ^ 63 / 10 then none
      else
        let x1 := x * 10 + d
        if x1 > 2 ^ 63 then none
        else leadingInt cs x1

/-- The function `leadingFraction` of package `time`: consumes the leading `[0-9]*`,
stops accumulating precision on overflow; returns the digits read as a number, the
scale (accumulated in double precision, `scale *= 10` per digit kept) and the rest. -/
def leadingFraction : List Char → Nat → Float → Bool → Nat × Float × List Char
  | [], x, scale, _ => (x, scale, [])
  | c :: cs, x, scale, overflow =>
    match digitVal c with
    | none => (x, scale, c :: cs)
    | some d =>
      if overflow then leadingFraction cs x scale true
      else if x > (2 ^ 63 - 1) / 10 then leadingFraction cs x scale true
      else
        let y := x * 10 + d
        if y > 2 ^ 63 then leadingFraction cs x scale true
        else leadingFraction cs y (scale * 10) false

/-- The table `unitMap` of package `time`: nanoseconds per unit. -/
def unitMap (u : String) : Option Nat :=
  if u = "ns" then some 1
  else if u = "us" then some 1000
  else if u = "µs" then some 1000
  else if u = "μs" then some 1000
  else if u = "ms" then some 1000000
  else if u = "s" then some 1000000000
  else if u = "m" then some 60000000000
  else if u = "h" then some 3600000000000
  else none

/-- The unit scan of `ParseDuration`: the longest prefix without `.` and digits, and the
rest. -/
def spanUnit : List Char → List Char × List Char
  | [] => ([], [])
  | c :: cs =>
    if c = '.' ∨ (digitVal c).isSome then ([], c :: cs)
    else
      let (u, rest) := spanUnit cs
      (c :: u, rest)

/-- The term `uint64(float64(f) * (float64(unit) / scale))` of `ParseDuration`, in IEEE
double precision. -/
def fractionNanos (f unit : Nat) (scale : Float) : Nat :=
  (Float.ofNat f * (Float.ofNat unit / scale)).toUInt64.toNat

/-- The errors of `time.ParseDuration`, by their message: `time: invalid duration`,
`time: missing unit in duration` and `time: unknown unit`. -/
inductive DurationError where
  | invalid
  | missingUnit
  | unknownUnit (u : String)
deriving DecidableEq, Repr

/-- The step `Consume (\.[0-9]*)?` of `time.ParseDuration`: the fraction digits as a
number, the scale, whether a digit was consumed after the period, and the rest. -/
def fractionPart (s1 : List Char) : Nat × Float × Bool × List Char :=
  match s1 with
  | '.' :: t =>
    let (f, scale, rest) := leadingFraction t 0 1 false
    (f, scale, t.length != rest.length, rest)
  | _ => (0, 1, false, s1)

/-- One turn of the loop `for s != ""` of `time.ParseDuration` on the non-empty rest
`c :: cs`, with `d` the sum so far: a number, an optional fraction and a unit are
consumed; the result is the rest of the string and the new sum. -/
def ParseDurationTurn (c : Char) (cs : List Char) (d : Nat) :
    Except DurationError (List Char × Nat) :=
  if ¬ (c = '.' ∨ (digitVal c).isSome) then
    Except.error DurationError.invalid
  else
    match leadingInt (c :: cs) 0 with
    | none => Except.error DurationError.invalid
    | some (v, s1) =>
      let pre := (c :: cs).length != s1.length
      let (f, scale, post, s2) := fractionPart s1
      if !pre && !post then Except.error DurationError.invalid
      else
        let (u, s3) := spanUnit s2
        if u.length = 0 then
          Except.error DurationError.missingUnit
        else
          match unitMap (String.mk u) with
          | none =>
            Except.error (DurationError.unknownUnit (String.mk u))
          | some unit =>
            if v > 2 ^ 63 / unit then
              Except.error DurationError.invalid
            else
              let v1 := v * unit
              let v2 := if f > 0 then (v1 + fractionNanos f unit scale) % 2 ^ 64 else v1
              if f > 0 ∧ v2 > 2 ^ 63 then
                Except.error DurationError.invalid
              else
                let d1 := (d + v2) % 2 ^ 64
                if d1 > 2 ^ 63 then Except.error DurationError.invalid
                else Except.ok (s3, d1)

/-- The loop `for s != ""` of `time.ParseDuration`: `d` is the sum so far.  Every turn
consumes at least the unit, so a fuel of one more than the length of the string is never
used up (`ParseDurationLoop_fuel`). -/
def ParseDurationLoop : Nat → List Char → Nat → Except DurationError Nat
  | 0, _, d => Except.ok d
  | _ + 1, [], d => Except.ok d
  | fuel + 1, c :: cs, d =>
    match ParseDurationTurn c cs d with
    | Except.error e => Except.error e
    | Except.ok (s3, d1) => ParseDurationLoop fuel s3 d1

/-- The grammar of `time.ParseDuration`, `[-+]?([0-9]*(\.[0-9]*)?[a-z]+)+`: the duration in
nanoseconds, or the error message. -/
def parseDuration (s : String) : Except DurationError Int :=
  let cs := s.toList
  let neg := cs.head? = some '-'
  let cs :=
    match cs with
    | c :: t => if c = '-' ∨ c = '+' then t else c :: t
    | [] => []
  if cs = ['0'] then Except.ok 0
  else if cs = [] then Except.error DurationError.invalid
  else
    match ParseDurationLoop (cs.length + 1) cs 0 with
    | Except.error e => Except.error e
    | Except.ok d =>
      if neg then Except.ok (-(d : Int))
      else if d > 2 ^ 63 - 1 then Except.error DurationError.invalid
      else Except.ok (d : Int)

/-- The function `time.ParseDuration` with Go's pair of results: every error return of the
function is `return 0, errors.New(...)`. -/
def ParseDuration (s : String) : Int × Option DurationError :=
  match parseDuration s with
  | Except.ok d => (d, none)
  | Except.error e => (0, some e)

/-! ## Slices -/

/-- The largest size the Go runtime agrees to allocate on a 64-bit platform
(`runtime.maxAlloc`, `1 << 48`). -/
def maxAlloc : Nat := 2 ^ 48

/-- The allocation `make([]byte, n)`: a zeroed slice, or the run-time panic
`makeslice: len out of range` (`none`) when `n` is negative or larger than the runtime
allocates. -/
def makeslice (n : Int) : Option Bytes :=
  if n < 0 then none
  else if n.toNat > maxAlloc then none
  else some (List.replicate n.toNat 0)

/-- The conversion `byte(x)` of a non-negative `int`. -/
def byte (x : Nat) : Nat := x % 256

/-- The loop `for i := 0; i < byteSize; i++ { bs[i] = byte(97 + i%26) }`. -/
def fill (byteSize : Nat) (bs : Bytes) : Bytes :=
  (List.range byteSize).foldl (fun acc i => acc.set i (byte (97 + i % 26))) bs

/-! ## Program state -/

/-- The package-level variables of `main.go` together with the process environment and
the files of the working directory. -/
structure State where
  /-- The variable `random`: the instance identity. -/
  random : String
  /-- The variable `sizeResponse`; `none` is the nil slice. -/
  sizeResponse : Option Bytes
  /-- The variable `healthy`. -/
  healthy : Bool
  /-- The function `os.Getenv`; an unset variable reads as `""`. -/
  Getenv : String → String
  /-- The files of the working directory, by name. -/
  files : String → Option Bytes

/-- A request as the handlers read it. -/
structure Request where
  /-- The field `r.URL.Path`. -/
  Path : String
  /-- The field `r.Header`. -/
  Header : Header
  /-- The parsed query `r.URL.Query()`. -/
  Query : Values
  /-- The bytes `r.Body` delivers. -/
  Body : Bytes
  /-- Whether reading `r.Body` ends with an error instead of end-of-file. -/
  BodyErr : Bool

/-- What the outside world decides during one call. -/
structure Extern where
  /-- Whether `os.OpenFile` returns an error for the name. -/
  openFails : String → Bool
  /-- The number of bytes after which a write to the opened file fails, if any. -/
  writeFailsAt : Option Nat
  /-- The error text of `url.Parse` for the string, `none` when it parses. -/
  urlParseErr : String → Option String
  /-- What `httputil.NewSingleHostReverseProxy(u).ServeHTTP(w, r)` does to the writer, and
  whether it panics (it aborts the handler when the upstream body breaks off). -/
  proxy : String → ResponseWriter → ResponseWriter × Bool

/-- The run of a handler. -/
structure Result where
  /-- The state after the handler. -/
  st : State
  /-- The response writer when the handler returned or panicked. -/
  w : ResponseWriter
  /-- Whether the handler ended in a run-time panic. -/
  panicked : Bool
  /-- The argument of `time.Sleep`, in nanoseconds, when the handler slept. -/
  slept : Option Int

/-- The response the client receives: none when the handler panicked (the server
closes the connection), else the writer after `finishRequest`. -/
def Result.response (r : Result) : Option Response :=
  if r.panicked then none
  else
    let w := r.w.finishRequest
    some { status := w.status, header := w.sentHeader, body := w.body }

/-! ## The handlers of `main.go` -/

/-- The handler `PongHandler`; `ioutil.ReadAll(r.Body)` returns the bytes read and the read
error. -/
def PongHandler (st : State) (w : ResponseWriter) (r : Request) : Result :=
  let bs := r.Body
  if r.BodyErr then
    { st := st, w := w.WriteHeader 500, panicked := false, slept := none }
  else
    let w := w.SetHeader "X-HelloHttp-Instance" st.random
    let w := w.SetHeader "X-HelloHttp-Req-Body-Length" (Itoa (bs.length : Nat))
    { st := st, w := w.Write (bytesOf "PONG"), panicked := false, slept := none }

/-- The handler `LogRequestHandler`; the lines it prints go to standard output. -/
def LogRequestHandler (st : State) (w : ResponseWriter) (_r : Request) : Result :=
  let w := w.SetHeader "X-HelloHttp-Instance" st.random
  { st := st, w := w.Write (bytesOf "PONG"), panicked := false, slept := none }

/-- The handler `ClientHandler`. -/
def ClientHandler (st : State) (x : Extern) (w : ResponseWriter) (r : Request) : Result :=
  let urlStr := r.Header.Get "X-Req-URL"
  if urlStr = "" then
    let w := w.WriteHeader 400
    { st := st, w := w.Write (bytesOf "missing X-Req-URL"), panicked := false, slept := none }
  else
    match x.urlParseErr urlStr with
    | some msg =>
      let w := w.WriteHeader 400
      { st := st, w := w.Write (bytesOf msg), panicked := false, slept := none }
    | none =>
      let w := w.SetHeader "X-HelloHttp-Instance" st.random
      let (w, aborted) := x.proxy urlStr w
      { st := st, w := w, panicked := aborted, slept := none }

/-- The handler `SizeHandler`. -/
def SizeHandler (st : State) (w : ResponseWriter) (r : Request) : Result :=
  let w := w.SetHeader "X-HelloHttp-Instance" st.random
  let byteSizeStr := r.Query.Get "byte_size"
  let w :=
    if byteSizeStr = "" then (w.WriteHeader 400).Write (bytesOf "missing byte_size query var")
    else w
  if byteSizeStr = st.Getenv "SIZE_RESPONSE_LEN" then
    { st := st, w := w.Write (st.sizeResponse.getD []), panicked := false, slept := none }
  else
    let (byteSize, err) := Atoi byteSizeStr
    let w :=
      if err ≠ none then (w.WriteHeader 400).Write (bytesOf "strconv.Atoi failed")
      else w
    match makeslice byteSize with
    | none => { st := st, w := w, panicked := true, slept := none }
    | some bs =>
      let bs := fill byteSize.toNat bs
      { st := st, w := w.Write bs, panicked := false, slept := none }

/-- The handler `DelayHandler`. -/
def DelayHandler (st : State) (w : ResponseWriter) (r : Request) : Result :=
  let w := w.SetHeader "X-HelloHttp-Instance" st.random
  let durationStr := r.Query.Get "duration"
  let w :=
    if durationStr = "" then (w.WriteHeader 400).Write (bytesOf "missing duration query var")
    else w
  let (duration, err) := ParseDuration durationStr
  let w :=
    if err ≠ none then (w.WriteHeader 400).Write (bytesOf "time.ParseDuration failed")
    else w
  { st := st, w := w, panicked := false, slept := some duration }

/-- The call `io.Copy(f, r.Body)` into a file opened empty: the content of the file
afterwards and whether the copy returned an error (a failed write, or a failed read of
the body). -/
def ioCopy (x : Extern) (r : Request) : Bytes × Bool :=
  match x.writeFailsAt with
  | some k => if k < r.Body.length then (r.Body.take k, true) else (r.Body, r.BodyErr)
  | none => (r.Body, r.BodyErr)

/-- The handler `ExfilHandler`; `os.OpenFile` with `O_WRONLY|O_CREATE|O_TRUNC` leaves the
file empty, `defer f.Close()` releases the handle. -/
def ExfilHandler (st : State) (x : Extern) (w : ResponseWriter) (r : Request) : Result :=
  let w := w.SetHeader "X-HelloHttp-Instance" st.random
  let filename := r.Header.Get "X-Filename"
  if filename = "" then
    { st := st, w := w.WriteHeader 400, panicked := false, slept := none }
  else if x.openFails filename then
    { st := st, w := w.WriteHeader 500, panicked := false, slept := none }
  else
    let (content, err) := ioCopy x r
    let st := { st with files := fun name => if name = filename then some content else st.files name }
    if err then
      { st := st, w := w.WriteHeader 500, panicked := false, slept := none }
    else
      { st := st, w := w, panicked := false, slept := none }

/-- The handler `NotFoundHandler`. -/
def NotFoundHandler (st : State) (w : ResponseWriter) (_r : Request) : Result :=
  let w := w.SetHeader "X-HelloHttp-Instance" st.random
  { st := st, w := w.WriteHeader 404, panicked := false, slept := none }

/-- The handler `HealthHandler`. -/
def HealthHandler (st : State) (w : ResponseWriter) (_r : Request) : Result :=
  let w := w.SetHeader "X-HelloHttp-Instance" st.random
  if st.healthy then
    { st := st, w := w.WriteHeader 200, panicked := false, slept := none }
  else
    { st := st, w := w.WriteHeader 500, panicked := false, slept := none }

/-- The handler `HealthPassHandler`. -/
def HealthPassHandler (st : State) (w : ResponseWriter) (_r : Request) : Result :=
  let w := w.SetHeader "X-HelloHttp-Instance" st.random
  { st := { st with healthy := true }, w := w, panicked := false, slept := none }

/-- The handler `HealthFailHandler`. -/
def HealthFailHandler (st : State) (w : ResponseWriter) (_r : Request) : Result :=
  let w := w.SetHeader "X-HelloHttp-Instance" st.random
  { st := { st with healthy := false }, w := w, panicked := false, slept := none }

/-! ## Start-up: `init` and `main` -/

/-- The function `hex.EncodeToString`. -/
def hexEncodeToString (bs : Bytes) : String :=
  String.mk (bs.flatMap fun b => [Nat.digitChar (b / 16 % 16), Nat.digitChar (b % 16)])

/-- The function `init`, run once after the package-level variables are initialised
(`healthy = true`): `rnd` is what `rand.Read` puts into the four bytes; `none` is a
run-time panic, which ends the process before `main` starts. -/
def init (rnd : Nat → Nat) (Getenv : String → String) (files : String → Option Bytes) :
    Option State :=
  let bs := (List.range 4).map fun i => byte (rnd i)
  let random := hexEncodeToString bs
  let (byteSize, err) := Atoi (Getenv "SIZE_RESPONSE_LEN")
  if err = none then
    match makeslice byteSize with
    | none => none
    | some sizeResponse =>
      some { random := random, sizeResponse := some (fill byteSize.toNat sizeResponse),
             healthy := true, Getenv := Getenv, files := files }
  else
    some { random := random, sizeResponse := none, healthy := true, Getenv := Getenv,
           files := files }

/-- The handlers that `main` registers. -/
inductive HandlerFunc where
  | PongHandler
  | LogRequestHandler
  | ClientHandler
  | SizeHandler
  | DelayHandler
  | ExfilHandler
  | NotFoundHandler
  | HealthHandler
  | HealthPassHandler
  | HealthFailHandler
deriving DecidableEq, Repr

/-- The call `h(w, r)` of a registered handler. -/
def HandlerFunc.ServeHTTP (h : HandlerFunc) (st : State) (x : Extern) (w : ResponseWriter)
    (r : Request) : Result :=
  match h with
  | HandlerFunc.PongHandler => HelloHttp.PongHandler st w r
  | HandlerFunc.LogRequestHandler => HelloHttp.LogRequestHandler st w r
  | HandlerFunc.ClientHandler => HelloHttp.ClientHandler st x w r
  | HandlerFunc.SizeHandler => HelloHttp.SizeHandler st w r
  | HandlerFunc.DelayHandler => HelloHttp.DelayHandler st w r
  | HandlerFunc.ExfilHandler => HelloHttp.ExfilHandler st x w r
  | HandlerFunc.NotFoundHandler => HelloHttp.NotFoundHandler st w r
  | HandlerFunc.HealthHandler => HelloHttp.HealthHandler st w r
  | HandlerFunc.HealthPassHandler => HelloHttp.HealthPassHandler st w r
  | HandlerFunc.HealthFailHandler => HelloHttp.HealthFailHandler st w r

/-- The table of `http.ServeMux`: the registered patterns with their handlers. -/
abbrev ServeMux := List (String × HandlerFunc)

/-- The method `HandleFunc` (the patterns `main` registers are non-empty and distinct, so
the registration does not panic). -/
def ServeMux.HandleFunc (mux : ServeMux) (pattern : String) (h : HandlerFunc) : ServeMux :=
  mux ++ [(pattern, h)]

/-- What the mux selects for a request. -/
inductive Route where
  /-- A registered handler. -/
  | handler (h : HandlerFunc)
  /-- The redirect handler, `301` to the given path. -/
  | redirect (path : String)
  /-- The handler `http.NotFoundHandler()`. -/
  | notFound
deriving DecidableEq, Repr

/-- The method `match` of `ServeMux`: an exact match first, else the longest registered
pattern that ends in `/` and is a prefix of the path. -/
def ServeMux.matchPath (mux : ServeMux) (path : String) : Option (HandlerFunc × String) :=
  match mux.lookup path with
  | some h => some (h, path)
  | none =>
    (mux.filter fun e => e.1.toList.getLast? = some '/' ∧ e.1.toList.isPrefixOf path.toList).foldl
      (fun best e =>
        match best with
        | none => some (e.2, e.1)
        | some b => if e.1.length > b.2.length then some (e.2, e.1) else some b)
      none

/-- The method `handler` of `ServeMux` (no pattern of `main` names a host): the matched
handler, else `NotFoundHandler()`. -/
def ServeMux.handler (mux : ServeMux) (path : String) : Route × String :=
  match mux.matchPath path with
  | some (h, pattern) => (Route.handler h, pattern)
  | none => (Route.notFound, "")

/-- The function `path.Clean` on a rooted path, by components: empty and `.` components
are dropped, `..` removes the component before it (none at the root). -/
def cleanComponents : List (List Char) → List (List Char) → List (List Char)
  | [], out => out.reverse
  | c :: cs, out =>
    if c = [] ∨ c = ['.'] then cleanComponents cs out
    else if c = ['.', '.'] then cleanComponents cs out.tail
    else cleanComponents cs (c :: out)

/-- The function `cleanPath` of `net/http`: the canonical path, rooted, without `.` and
`..` and doubled slashes, keeping a trailing slash. -/
def cleanPath (p : String) : String :=
  if p = "" then "/"
  else
    let cs := if p.toList.head? = some '/' then p.toList else '/' :: p.toList
    let np := '/' :: List.intercalate ['/'] (cleanComponents (cs.splitOn '/') [])
    if cs.getLast? = some '/' ∧ np ≠ ['/'] then String.mk (np ++ ['/'])
    else String.mk np

/-- The method `shouldRedirectRLocked` of `ServeMux`: the path is not registered and the
path with a trailing slash is. -/
def ServeMux.shouldRedirect (mux : ServeMux) (path : String) : Bool :=
  if (mux.lookup path).isSome then false
  else if path.length = 0 then false
  else if (mux.lookup (path ++ "/")).isSome then path.toList.getLast? != some '/'
  else false

/-- The method `Handler` of `ServeMux` on `r.Method` and `r.URL.Path` (no pattern of
`main` names a host).  A `CONNECT` request is matched on its path as it is; for every
other method a path that is not canonical is redirected to the canonical one. -/
def ServeMux.Handler (mux : ServeMux) (method urlPath : String) : Route × String :=
  if method = "CONNECT" then
    if mux.shouldRedirect urlPath then (Route.redirect (urlPath ++ "/"), urlPath ++ "/")
    else mux.handler urlPath
  else
    let path := cleanPath urlPath
    if mux.shouldRedirect path then (Route.redirect (path ++ "/"), path ++ "/")
    else if path ≠ urlPath then (Route.redirect path, (mux.handler path).2)
    else mux.handler urlPath

/-- The type `http.Server`, with the fields `main` sets. -/
structure Server where
  Addr : String
  /-- The field `IdleTimeout`, in nanoseconds. -/
  IdleTimeout : Int
deriving DecidableEq, Repr

/-- The function `main` up to `server.ListenAndServe()`: the configured server and the
routes registered in `http.DefaultServeMux`. -/
def main (Getenv : String → String) : Server × ServeMux :=
  let port := Getenv "PORT"
  let port := if port = "" then "3000" else port
  let server : Server := { Addr := ":" ++ port, IdleTimeout := 0 }
  let parsed := ParseDuration (Getenv "IDLE_TIMEOUT")
  let d := parsed.1
  let err := parsed.2
  let server := if err ≠ none then { server with IdleTimeout := d } else server
  let mux : ServeMux := []
  let mux := mux.HandleFunc "/" HandlerFunc.PongHandler
  let mux := mux.HandleFunc "/ping" HandlerFunc.PongHandler
  let mux := mux.HandleFunc "/log" HandlerFunc.LogRequestHandler
  let mux := mux.HandleFunc "/client" HandlerFunc.ClientHandler
  let mux := mux.HandleFunc "/size" HandlerFunc.SizeHandler
  let mux := mux.HandleFunc "/delay" HandlerFunc.DelayHandler
  let mux := mux.HandleFunc "/exfil" HandlerFunc.ExfilHandler
  let mux := mux.HandleFunc "/404" HandlerFunc.NotFoundHandler
  let mux := mux.HandleFunc "/health" HandlerFunc.HealthHandler
  let mux := mux.HandleFunc "/health/pass" HandlerFunc.HealthPassHandler
  let mux := mux.HandleFunc "/health/fail" HandlerFunc.HealthFailHandler
  (server, mux)

/-! ## Sequences of requests -/

/-- One request of a run of the server: the registered handler it is served by, the
request, and what the outside world decides during the call. -/
structure Call where
  h : HandlerFunc
  x : Extern
  r : Request

/-- The state after serving the requests one after the other, each with a new writer; a
panic of a handler is recovered by the server and leaves the state as the handler left
it. -/
def serveAll (st : State) (calls : List Call) : State :=
  calls.foldl (fun st c => (c.h.ServeHTTP st c.x ResponseWriter.fresh c.r).st) st

/-- The most recent request of the sequence that went to `HealthPassHandler` or
`HealthFailHandler`, if any: the handler it went to. -/
def lastHealthWrite (calls : List Call) : Option HandlerFunc :=
  calls.foldl
    (fun last c =>
      if c.h = HandlerFunc.HealthPassHandler ∨ c.h = HandlerFunc.HealthFailHandler then some c.h
      else last)
    none

/-- A writer on which the status `code` has been written. -/
def Sent (code : Nat) (w : ResponseWriter) : Prop :=
  w.wroteHeader = true ∧ w.status = code

/-! ## Sample inputs -/

/-- An environment in which only `SIZE_RESPONSE_LEN` is set. -/
def envSizeLen (v : String) : String → String :=
  fun name => if name = "SIZE_RESPONSE_LEN" then v else ""

/-- A state after start-up without `SIZE_RESPONSE_LEN`, with no files. -/
def sampleState : State :=
  { random := "00c0ffee", sizeResponse := none, healthy := true, Getenv := fun _ => "",
    files := fun _ => none }

/-- A request to `/size` with the given `byte_size`. -/
def sizeRequest (v : String) : Request :=
  { Path := "/size", Header := [], Query := [("byte_size", v)], Body := [], BodyErr := false }

/-- An outside world in which files open and take every write, every URL parses and the
proxy leaves the response alone. -/
def sampleExtern : Extern :=
  { openFails := fun _ => false, writeFailsAt := none, urlParseErr := fun _ => none,
    proxy := fun _ w => (w, false) }

/-- A request with the given path, headers and body, read without error. -/
def sampleRequest (path : String) (header : Header) (body : Bytes) : Request :=
  { Path := path, Header := header, Query := [], Body := body, BodyErr := false }

/-! ## Lemmas on `strconv` -/

theorem digitVal_digitChar (k : Nat) (hk : k < 10) : digitVal (Nat.digitChar k) = some k := by
  interval_cases k <;> rfl

theorem ParseUintLoop_toDigitsCore (fuel : Nat) :
    ∀ (n : Nat) (ds : List Char), n < fuel → n < 2 ^ 64 →
      ParseUintLoop (Nat.toDigitsCore 10 fuel n ds) 0 = ParseUintLoop ds n := by
  induction fuel with
  | zero => intro n ds h; omega
  | succ fuel ih =>
    intro n ds hfuel hn
    have hd : digitVal (Nat.digitChar (n % 10)) = some (n % 10) :=
      digitVal_digitChar _ (Nat.mod_lt _ (by decide))
    unfold Nat.toDigitsCore
    by_cases h0 : n / 10 = 0
    · simp only [h0, if_true]
      have hlt : n < 10 := by omega
      have hmod : n % 10 = n := Nat.mod_eq_of_lt hlt
      rw [ParseUintLoop, hd]
      simp only [hmod]
      rw [if_neg (by norm_num), if_neg (by omega)]
      simp
    · simp only [h0, if_false]
      rw [ih (n / 10) _ (by omega) (by omega)]
      rw [ParseUintLoop, hd]
      simp only []
      rw [if_neg (by omega), if_neg (by omega)]
      have : n / 10 * 10 + n % 10 = n := by omega
      rw [this]

theorem toDigitsCore_head (fuel : Nat) :
    ∀ (n : Nat) (c : Char) (ds : List Char), digitVal c ≠ none →
      ∃ c1 cs, Nat.toDigitsCore 10 fuel n (c :: ds) = c1 :: cs ∧ digitVal c1 ≠ none := by
  induction fuel with
  | zero => intro n c ds hc; exact ⟨c, ds, rfl, hc⟩
  | succ fuel ih =>
    intro n c ds hc
    have hd : digitVal (Nat.digitChar (n % 10)) ≠ none := by
      rw [digitVal_digitChar _ (Nat.mod_lt _ (by decide))]; simp
    unfold Nat.toDigitsCore
    by_cases h0 : n / 10 = 0
    · simp only [h0, if_true]
      exact ⟨_, _, rfl, hd⟩
    · simp only [h0, if_false]
      exact ih _ _ _ hd

theorem toDigits_head (n : Nat) :
    ∃ c cs, Nat.toDigits 10 n = c :: cs ∧ digitVal c ≠ none := by
  have hd : digitVal (Nat.digitChar (n % 10)) ≠ none := by
    rw [digitVal_digitChar _ (Nat.mod_lt _ (by decide))]; simp
  unfold Nat.toDigits Nat.toDigitsCore
  by_cases h0 : n / 10 = 0
  · simp only [h0, if_true]
    exact ⟨_, _, rfl, hd⟩
  · simp only [h0, if_false]
    exact toDigitsCore_head _ _ _ _ hd

/-- Parsing the decimal string of a natural number in the range of `int` returns it. -/
theorem Atoi_repr (n : Nat) (hn : n < 2 ^ 63) : Atoi (Nat.repr n) = ((n : Int), none) := by
  obtain ⟨c, cs, hcs, hc⟩ := toDigits_head n
  have hloop : ParseUintLoop (Nat.toDigits 10 n) 0 = (n, none) := by
    unfold Nat.toDigits
    rw [ParseUintLoop_toDigitsCore (n + 1) n [] (by omega) (by omega)]
    rfl
  have hminus : c ≠ '-' := by
    intro h; rw [h] at hc; exact hc (by decide)
  have hplus : c ≠ '+' := by
    intro h; rw [h] at hc; exact hc (by decide)
  have hlist : (Nat.repr n).toList = c :: cs := by
    rw [← hcs]; rfl
  have hb1 : (c == '+') = false := by simpa using hplus
  have hb2 : (c == '-') = false := by simpa using hminus
  have hu : ParseUint (c :: cs) = (n, none) := by
    unfold ParseUint
    rw [← hcs, hloop, hcs]
  unfold Atoi
  rw [hlist]
  unfold ParseInt
  simp only [hb1, hb2, Bool.or_self, Bool.false_eq_true, if_false, hu]
  simp
  omega

/-- The decimal string of a natural number is not empty. -/
theorem repr_ne_empty (n : Nat) : Nat.repr n ≠ "" := by
  obtain ⟨c, cs, hcs, _⟩ := toDigits_head n
  intro h
  have : (Nat.repr n).toList = c :: cs := by rw [← hcs]; rfl
  rw [h] at this
  simp at this

/-! ## Lemmas on `time.ParseDuration` -/

theorem leadingInt_length (s : List Char) :
    ∀ (x v : Nat) (rem : List Char), leadingInt s x = some (v, rem) → rem.length ≤ s.length := by
  induction s with
  | nil =>
    intro x v rem h
    simp only [leadingInt, Option.some.injEq, Prod.mk.injEq] at h
    rw [← h.2]
  | cons c cs ih =>
    intro x v rem h
    unfold leadingInt at h
    cases hd : digitVal c with
    | none =>
      rw [hd] at h
      simp only [Option.some.injEq, Prod.mk.injEq] at h
      rw [← h.2]
    | some dg =>
      rw [hd] at h
      dsimp only at h
      split_ifs at h
      have := ih _ _ _ h
      simp only [List.length_cons]
      omega

theorem leadingFraction_length (s : List Char) :
    ∀ (x : Nat) (scale : Float) (overflow : Bool),
      (leadingFraction s x scale overflow).2.2.length ≤ s.length := by
  induction s with
  | nil => intro x scale overflow; simp [leadingFraction]
  | cons c cs ih =>
    intro x scale overflow
    unfold leadingFraction
    cases hd : digitVal c with
    | none => simp
    | some dg =>
      dsimp only
      simp only [List.length_cons]
      split_ifs
      · exact Nat.le_succ_of_le (ih _ _ _)
      · exact Nat.le_succ_of_le (ih _ _ _)
      · exact Nat.le_succ_of_le (ih _ _ _)
      · exact Nat.le_succ_of_le (ih _ _ _)

theorem spanUnit_length (s : List Char) :
    (spanUnit s).1.length + (spanUnit s).2.length = s.length := by
  induction s with
  | nil => simp [spanUnit]
  | cons c cs ih =>
    unfold spanUnit
    split_ifs
    · simp
    · simp only [List.length_cons]
      omega

theorem fractionPart_length (s1 : List Char) :
    (fractionPart s1).2.2.2.length ≤ s1.length := by
  unfold fractionPart
  split
  next t =>
    have := leadingFraction_length t 0 1 false
    generalize leadingFraction t 0 1 false = q at this ⊢
    obtain ⟨f, scale, rest⟩ := q
    simp only [List.length_cons] at this ⊢
    omega
  next => exact Nat.le_refl _

/-- A turn of the loop of `ParseDuration` that succeeds leaves a shorter rest. -/
theorem ParseDurationTurn_length (c : Char) (cs : List Char) (d : Nat) (s3 : List Char)
    (d1 : Nat) (h : ParseDurationTurn c cs d = Except.ok (s3, d1)) :
    s3.length < (c :: cs).length := by
  unfold ParseDurationTurn at h
  split_ifs at h
  cases hli : leadingInt (c :: cs) 0 with
  | none => rw [hli] at h; simp at h
  | some vs =>
    obtain ⟨v, s1⟩ := vs
    rw [hli] at h
    have h1 : s1.length ≤ (c :: cs).length := leadingInt_length _ _ _ _ hli
    dsimp only at h
    have h2 := fractionPart_length s1
    generalize fractionPart s1 = q at h h2
    obtain ⟨f, scale, post, s2⟩ := q
    have hsp := spanUnit_length s2
    generalize spanUnit s2 = us at h hsp
    obtain ⟨u, rest⟩ := us
    dsimp only at h h2 hsp
    by_cases hpp : (!(c :: cs).length != s1.length && !post) = true
    · rw [if_pos hpp] at h
      simp at h
    · rw [if_neg hpp] at h
      by_cases hu : u.length = 0
      · rw [if_pos hu] at h
        simp at h
      · rw [if_neg hu] at h
        cases hum : unitMap (String.mk u) with
        | none => rw [hum] at h; simp at h
        | some unit =>
          rw [hum] at h
          dsimp only at h
          have hrest : rest = s3 := by
            split_ifs at h <;> simp only [Except.ok.injEq, Prod.mk.injEq] at h <;> exact h.1
          rw [← hrest]
          simp only [List.length_cons] at h1 ⊢
          omega

/-- More fuel than the length of the string does not change the result of the loop: the
fuel is never used up. -/
theorem ParseDurationLoop_fuel (fuel : Nat) :
    ∀ (s : List Char) (d : Nat), s.length < fuel →
      ParseDurationLoop (fuel + 1) s d = ParseDurationLoop fuel s d := by
  induction fuel with
  | zero => intro s d h; omega
  | succ fuel ih =>
    intro s d h
    cases s with
    | nil => rfl
    | cons c cs =>
      rw [ParseDurationLoop, ParseDurationLoop]
      cases ht : ParseDurationTurn c cs d with
      | error e => rfl
      | ok res =>
        obtain ⟨s3, d1⟩ := res
        have := ParseDurationTurn_length c cs d s3 d1 ht
        simp only [List.length_cons] at this h
        exact ih s3 d1 (by omega)

/-! ## Lemmas on the fill loop and the response writer -/

/-- Loop invariant of `fill`: after `k` turns the first `k` bytes are set, the length and
the other bytes are as before. -/
theorem fill_loop_invariant (bs : Bytes) (k : Nat) (hk : k ≤ bs.length) :
    ((List.range k).foldl (fun acc i => acc.set i (byte (97 + i % 26))) bs).length = bs.length ∧
    ∀ i, ((List.range k).foldl (fun acc i => acc.set i (byte (97 + i % 26))) bs)[i]? =
      if i < k then some (97 + i % 26) else bs[i]? := by
  induction k with
  | zero => simp
  | succ k ih =>
    obtain ⟨hlen, hget⟩ := ih (by omega)
    rw [List.range_succ, List.foldl_append]
    simp only [List.foldl_cons, List.foldl_nil, List.length_set]
    refine ⟨hlen, ?_⟩
    intro i
    rw [List.getElem?_set]
    by_cases hik : k = i
    · subst hik
      have h1 : byte (97 + k % 26) = 97 + k % 26 := by
        unfold byte; omega
      simp [hlen, h1]
      omega
    · rw [if_neg hik, hget i]
      by_cases h2 : i < k
      · rw [if_pos h2, if_pos (by omega)]
      · rw [if_neg h2, if_neg (by omega)]

/-- The loop fills a slice of the requested length with the cyclic alphabet. -/
theorem fill_spec (n : Nat) (bs : Bytes) (h : bs.length = n) :
    (fill n bs).length = n ∧ ∀ i, i < n → (fill n bs)[i]? = some (97 + i % 26) := by
  obtain ⟨hlen, hget⟩ := fill_loop_invariant bs n (by omega)
  unfold fill
  refine ⟨by rw [hlen, h], ?_⟩
  intro i hi
  rw [hget i, if_pos hi]

theorem Sent_WriteHeader_first (w : ResponseWriter) (code : Nat) (h : w.wroteHeader = false) :
    Sent code (w.WriteHeader code) := by
  unfold Sent ResponseWriter.WriteHeader
  simp [h]

theorem Sent_WriteHeader (w : ResponseWriter) (code c : Nat) (h : Sent code w) :
    Sent code (w.WriteHeader c) := by
  unfold Sent ResponseWriter.WriteHeader at *
  simp [h.1, h.2]

theorem Sent_Write (w : ResponseWriter) (code : Nat) (data : Bytes) (h : Sent code w) :
    Sent code (w.Write data) := by
  obtain ⟨h1, h2⟩ := h
  unfold Sent ResponseWriter.Write
  simp only [h1, if_true]
  split_ifs
  · exact ⟨h1, h2⟩
  · exact ⟨rfl, h2⟩
  · exact ⟨h1, h2⟩

theorem Sent_response (res : Result) (code : Nat) (hp : res.panicked = false)
    (h : Sent code res.w) :
    ∃ resp, res.response = some resp ∧ resp.status = code := by
  unfold Result.response ResponseWriter.finishRequest
  simp [hp, h.1, h.2]

/-- The allocation succeeds for a length the runtime accepts. -/
theorem makeslice_ok (n : Nat) (h : n ≤ maxAlloc) :
    makeslice (n : Int) = some (List.replicate n 0) := by
  unfold makeslice
  rw [if_neg (by omega)]
  simp only [Int.toNat_ofNat]
  rw [if_neg (by omega)]

/-- A syntax error of `Atoi` comes with the value `0`. -/
theorem Atoi_syntax_value (s : String) (h : (Atoi s).2 = some NumError.ErrSyntax) :
    (Atoi s).1 = 0 := by
  unfold Atoi at *
  cases hl : s.toList with
  | nil => rfl
  | cons c cs =>
    rw [hl] at h
    unfold ParseInt at *
    simp only [] at *
    generalize ParseUint (if (c == '+' || c == '-') = true then cs else c :: cs) = pu at *
    obtain ⟨un, e⟩ := pu
    cases e with
    | none =>
      simp only [] at *
      split_ifs at h <;> simp at h
    | some err =>
      cases err with
      | ErrSyntax => rfl
      | ErrRange =>
        simp only [] at *
        split_ifs at h <;> simp at h

/-- The generating branch of `SizeHandler`: a `byte_size` that is the decimal string of a
length `make` allocates, and is not the value of `SIZE_RESPONSE_LEN`, is answered 200 with
the filled slice as body. -/
theorem SizeHandler_generating_branch (st : State) (r : Request) (N : Nat)
    (hN : N ≤ maxAlloc)
    (hq : r.Query.Get "byte_size" = Nat.repr N)
    (henv : Nat.repr N ≠ st.Getenv "SIZE_RESPONSE_LEN") :
    (SizeHandler st ResponseWriter.fresh r).response =
      some { status := 200, header := [("X-HelloHttp-Instance", st.random)],
             body := fill N (List.replicate N 0) } := by
  have hN63 : N < 2 ^ 63 := by unfold maxAlloc at hN; omega
  unfold SizeHandler
  simp only [hq, repr_ne_empty, if_false, henv, Atoi_repr N hN63, makeslice_ok N hN,
    Int.toNat_ofNat, ne_eq, not_true_eq_false]
  by_cases h0 : (fill N (List.replicate N 0)).length = 0
  · have : fill N (List.replicate N 0) = [] := List.length_eq_zero.mp h0
    simp [this, Result.response, ResponseWriter.Write, ResponseWriter.SetHeader,
      ResponseWriter.WriteHeader, ResponseWriter.fresh, ResponseWriter.finishRequest,
      Header.Set]
  · simp [h0, Result.response, ResponseWriter.Write, ResponseWriter.SetHeader,
      ResponseWriter.WriteHeader, ResponseWriter.fresh, ResponseWriter.finishRequest,
      Header.Set, bodyAllowedForStatus]

/-! ## The size handler (C1, C2, C7, C9) -/

/-- C1, as stated, fails: `byte_size=9223372036854775808` (2^63, not the value of
`SIZE_RESPONSE_LEN`) is outside the range of `int`; `Atoi` reports a range error, the
handler writes status 400 and the text `strconv.Atoi failed`, then panics in `make`, so
there is no response of 2^63 bytes. -/
theorem SizeHandler_int_range_counterexample :
    Nat.repr (2 ^ 63) ≠ sampleState.Getenv "SIZE_RESPONSE_LEN" ∧
    (SizeHandler sampleState ResponseWriter.fresh (sizeRequest (Nat.repr (2 ^ 63)))).response
      = none ∧
    (SizeHandler sampleState ResponseWriter.fresh (sizeRequest (Nat.repr (2 ^ 63)))).w.status
      = 400 ∧
    (SizeHandler sampleState ResponseWriter.fresh (sizeRequest (Nat.repr (2 ^ 63)))).w.body
      = bytesOf "strconv.Atoi failed" := by
  decide

/-- C1 (amended): for every non-negative integer N within what `make` allocates (so within
the range of `int`) whose decimal string differs from the value of `SIZE_RESPONSE_LEN`,
`SizeHandler` called with `byte_size=N` answers 200 with the instance header and a body of
exactly N bytes whose byte at every position i < N is 97 + i mod 26. -/
theorem SizeHandler_generates (st : State) (r : Request) (N : Nat)
    (hN : N ≤ maxAlloc)
    (hq : r.Query.Get "byte_size" = Nat.repr N)
    (henv : Nat.repr N ≠ st.Getenv "SIZE_RESPONSE_LEN") :
    ∃ body, (SizeHandler st ResponseWriter.fresh r).response =
        some { status := 200, header := [("X-HelloHttp-Instance", st.random)], body := body } ∧
      body.length = N ∧ ∀ i, i < N → body[i]? = some (97 + i % 26) := by
  obtain ⟨hlen, hget⟩ := fill_spec N (List.replicate N 0) (by simp)
  exact ⟨fill N (List.replicate N 0), SizeHandler_generating_branch st r N hN hq henv, hlen,
    hget⟩

/-- Witness for C1 (amended) at `byte_size=3`. -/
theorem SizeHandler_generates_witness :
    (3 ≤ maxAlloc ∧ (sizeRequest "3").Query.Get "byte_size" = Nat.repr 3 ∧
      Nat.repr 3 ≠ sampleState.Getenv "SIZE_RESPONSE_LEN") ∧
    ∃ body, (SizeHandler sampleState ResponseWriter.fresh (sizeRequest "3")).response =
        some { status := 200, header := [("X-HelloHttp-Instance", sampleState.random)],
               body := body } ∧
      body.length = 3 ∧ ∀ i, i < 3 → body[i]? = some (97 + i % 26) :=
  ⟨by decide, SizeHandler_generates sampleState (sizeRequest "3") 3 (by decide) (by decide)
    (by decide)⟩

/-- C2, as stated, fails: with `SIZE_RESPONSE_LEN=9223372036854775808` (K = 2^63, outside
the range of `int`) `init` creates no buffer, and `byte_size=9223372036854775808` is
answered 200 with an empty body instead of K bytes. -/
theorem SizeHandler_cached_counterexample :
    (init (fun _ => 0) (envSizeLen (Nat.repr (2 ^ 63))) (fun _ => none)).map
        (fun st => st.sizeResponse) = some none ∧
    (init (fun _ => 0) (envSizeLen (Nat.repr (2 ^ 63))) (fun _ => none)).bind
        (fun st => (SizeHandler st ResponseWriter.fresh (sizeRequest (Nat.repr (2 ^ 63)))).response)
      = some { status := 200, header := [("X-HelloHttp-Instance", "00000000")], body := [] } := by
  decide

/-- C2 (amended): when `SIZE_RESPONSE_LEN` is set at start-up to the decimal string of a
non-negative integer K within what `make` allocates (so within the range of `int`), `init`
builds the buffer, `SizeHandler` called with `byte_size` equal to that string answers 200
with that buffer as body, and the body is byte for byte the one the generating branch
produces for N = K in any state whose `SIZE_RESPONSE_LEN` differs: K bytes, the byte at
every position i < K being 97 + i mod 26. -/
theorem SizeHandler_cached_eq_generated (rnd : Nat → Nat) (Getenv : String → String)
    (files : String → Option Bytes) (K : Nat) (r : Request) (st1 : State)
    (hK : K ≤ maxAlloc)
    (henv : Getenv "SIZE_RESPONSE_LEN" = Nat.repr K)
    (hq : r.Query.Get "byte_size" = Nat.repr K)
    (hother : Nat.repr K ≠ st1.Getenv "SIZE_RESPONSE_LEN") :
    ∃ st body, init rnd Getenv files = some st ∧ st.sizeResponse = some body ∧
      (SizeHandler st ResponseWriter.fresh r).response =
        some { status := 200, header := [("X-HelloHttp-Instance", st.random)], body := body } ∧
      (SizeHandler st1 ResponseWriter.fresh r).response =
        some { status := 200, header := [("X-HelloHttp-Instance", st1.random)], body := body } ∧
      body.length = K ∧ ∀ i, i < K → body[i]? = some (97 + i % 26) := by
  have hK63 : K < 2 ^ 63 := by unfold maxAlloc at hK; omega
  obtain ⟨hlen, hget⟩ := fill_spec K (List.replicate K 0) (by simp)
  have hresp1 := SizeHandler_generating_branch st1 r K hK hq hother
  have hinit : init rnd Getenv files =
      some { random := hexEncodeToString ((List.range 4).map fun i => byte (rnd i)),
             sizeResponse := some (fill K (List.replicate K 0)), healthy := true,
             Getenv := Getenv, files := files } := by
    unfold init
    simp only [henv, Atoi_repr K hK63, makeslice_ok K hK, Int.toNat_ofNat, if_true]
  refine ⟨_, fill K (List.replicate K 0), hinit, rfl, ?_, hresp1, hlen, hget⟩
  · unfold SizeHandler
    simp only [hq, repr_ne_empty, if_false, henv, if_true, Option.getD_some]
    by_cases h0 : (fill K (List.replicate K 0)).length = 0
    · have : fill K (List.replicate K 0) = [] := List.length_eq_zero.mp h0
      simp [this, Result.response, ResponseWriter.Write, ResponseWriter.SetHeader,
        ResponseWriter.WriteHeader, ResponseWriter.fresh, ResponseWriter.finishRequest,
        Header.Set]
    · simp [h0, Result.response, ResponseWriter.Write, ResponseWriter.SetHeader,
        ResponseWriter.WriteHeader, ResponseWriter.fresh, ResponseWriter.finishRequest,
        Header.Set, bodyAllowedForStatus]

/-- Witness for C2 (amended) at `SIZE_RESPONSE_LEN=30`. -/
theorem SizeHandler_cached_eq_generated_witness :
    (30 ≤ maxAlloc ∧ envSizeLen "30" "SIZE_RESPONSE_LEN" = Nat.repr 30 ∧
      (sizeRequest "30").Query.Get "byte_size" = Nat.repr 30 ∧
      Nat.repr 30 ≠ sampleState.Getenv "SIZE_RESPONSE_LEN") ∧
    ∃ st body, init (fun _ => 0) (envSizeLen "30") (fun _ => none) = some st ∧
      st.sizeResponse = some body ∧
      (SizeHandler st ResponseWriter.fresh (sizeRequest "30")).response =
        some { status := 200, header := [("X-HelloHttp-Instance", st.random)], body := body } ∧
      (SizeHandler sampleState ResponseWriter.fresh (sizeRequest "30")).response =
        some { status := 200, header := [("X-HelloHttp-Instance", sampleState.random)],
               body := body } ∧
      body.length = 30 ∧ ∀ i, i < 30 → body[i]? = some (97 + i % 26) :=
  ⟨by decide, SizeHandler_cached_eq_generated (fun _ => 0) (envSizeLen "30") (fun _ => none) 30
    (sizeRequest "30") sampleState (by decide) (by decide) (by decide) (by decide)⟩

/-- C7, as stated, fails twice: with `SIZE_RESPONSE_LEN=abc` the request `byte_size=abc`
(not an integer) takes the cached branch and is answered 200 with an empty body; and
`byte_size=99999999999999999999`, which `Atoi` rejects as out of range, makes the handler
panic in `make` after it wrote 400, so no response is delivered. -/
theorem SizeHandler_unparseable_counterexample :
    (Atoi "abc").2 = some NumError.ErrSyntax ∧
    (init (fun _ => 0) (envSizeLen "abc") (fun _ => none)).bind
        (fun st => (SizeHandler st ResponseWriter.fresh (sizeRequest "abc")).response)
      = some { status := 200, header := [("X-HelloHttp-Instance", "00000000")], body := [] } ∧
    (Atoi "99999999999999999999").2 = some NumError.ErrRange ∧
    (SizeHandler sampleState ResponseWriter.fresh (sizeRequest "99999999999999999999")).response
      = none := by
  decide

/-- C7 (amended): for every request to `SizeHandler` whose `byte_size` is missing (empty),
or differs from the value of `SIZE_RESPONSE_LEN` and is rejected by `Atoi` as a syntax
error, and for every value of `SIZE_RESPONSE_LEN`, the handler returns and the response
status is 400. -/
theorem SizeHandler_bad_request (st : State) (r : Request)
    (h : r.Query.Get "byte_size" = "" ∨
      (r.Query.Get "byte_size" ≠ st.Getenv "SIZE_RESPONSE_LEN" ∧
        (Atoi (r.Query.Get "byte_size")).2 = some NumError.ErrSyntax)) :
    ∃ resp, (SizeHandler st ResponseWriter.fresh r).response = some resp ∧
      resp.status = 400 := by
  have hmake : makeslice 0 = some [] := by decide
  have hempty : Atoi "" = (0, some NumError.ErrSyntax) := by decide
  have hfresh : (ResponseWriter.fresh.SetHeader "X-HelloHttp-Instance" st.random).wroteHeader
      = false := rfl
  have hsize : (SizeHandler st ResponseWriter.fresh r).panicked = false ∧
      Sent 400 (SizeHandler st ResponseWriter.fresh r).w := by
    by_cases hE : r.Query.Get "byte_size" = ""
    · have h1 := Sent_Write _ 400 (bytesOf "missing byte_size query var")
        (Sent_WriteHeader_first _ 400 hfresh)
      by_cases henv : "" = st.Getenv "SIZE_RESPONSE_LEN"
      · unfold SizeHandler
        simp only [hE, if_true, ← henv]
        exact ⟨trivial, Sent_Write _ _ _ h1⟩
      · unfold SizeHandler
        simp only [hE, if_true, henv, if_false, hempty, hmake, ne_eq, reduceCtorEq,
          not_false_eq_true]
        exact ⟨trivial, Sent_Write _ _ _ (Sent_Write _ _ _ (Sent_WriteHeader _ _ _ h1))⟩
    · rcases h with h | ⟨hne, herr⟩
      · exact absurd h hE
      · have hpair : Atoi (r.Query.Get "byte_size") = (0, some NumError.ErrSyntax) :=
          Prod.ext (Atoi_syntax_value _ herr) herr
        unfold SizeHandler
        simp only [hE, hne, hpair, hmake, if_false, ne_eq, reduceCtorEq, not_false_eq_true,
          if_true]
        exact ⟨trivial, Sent_Write _ _ _ (Sent_Write _ _ _ (Sent_WriteHeader_first _ 400 hfresh))⟩
  exact Sent_response _ 400 hsize.1 hsize.2

/-- Witness for C7 (amended) at `byte_size=abc` without `SIZE_RESPONSE_LEN`. -/
theorem SizeHandler_bad_request_witness :
    ((sizeRequest "abc").Query.Get "byte_size" = "" ∨
      ((sizeRequest "abc").Query.Get "byte_size" ≠ sampleState.Getenv "SIZE_RESPONSE_LEN" ∧
        (Atoi ((sizeRequest "abc").Query.Get "byte_size")).2 = some NumError.ErrSyntax)) ∧
    ∃ resp, (SizeHandler sampleState ResponseWriter.fresh (sizeRequest "abc")).response
        = some resp ∧ resp.status = 400 :=
  ⟨by decide, SizeHandler_bad_request sampleState (sizeRequest "abc") (by decide)⟩

/-- C9, as stated, fails: with `SIZE_RESPONSE_LEN=-5` the value parses as the integer -5 and
`init` panics in `make([]byte, -5)` instead of completing. -/
theorem init_negative_counterexample :
    Atoi "-5" = (-5, none) ∧
    (init (fun _ => 0) (envSizeLen "-5") (fun _ => none)).isNone = true := by
  decide

/-- C9 (amended): `init` ends in a run-time panic exactly when `SIZE_RESPONSE_LEN` parses
(`Atoi`) as an integer that is negative or larger than `make` allocates.  For every other
value it completes: when the value parses as an integer K (then 0 ≤ K, within the
allocation limit) the buffer is created, has length K and holds 97 + i mod 26 at every
position i < K; when the value does not parse (unset, non-numeric, outside the range of
`int`) no buffer is created. -/
theorem init_sizeResponse (rnd : Nat → Nat) (Getenv : String → String)
    (files : String → Option Bytes) :
    match Atoi (Getenv "SIZE_RESPONSE_LEN") with
    | (K, none) =>
      if K < 0 ∨ maxAlloc < K.toNat then init rnd Getenv files = none
      else ∃ st buf, init rnd Getenv files = some st ∧ st.sizeResponse = some buf ∧
        (buf.length : Int) = K ∧ ∀ i, i < buf.length → buf[i]? = some (97 + i % 26)
    | (_, some _) => ∃ st, init rnd Getenv files = some st ∧ st.sizeResponse = none := by
  cases hA : Atoi (Getenv "SIZE_RESPONSE_LEN") with
  | mk K err =>
    cases err with
    | some e =>
      simp only []
      have hinit : init rnd Getenv files =
          some { random := hexEncodeToString ((List.range 4).map fun i => byte (rnd i)),
                 sizeResponse := none, healthy := true, Getenv := Getenv, files := files } := by
        unfold init
        simp only [hA, reduceCtorEq, if_false]
      exact ⟨_, hinit, rfl⟩
    | none =>
      simp only []
      by_cases hbad : K < 0 ∨ maxAlloc < K.toNat
      · rw [if_pos hbad]
        have hmk : makeslice K = none := by
          unfold makeslice
          rcases hbad with h | h
          · rw [if_pos h]
          · by_cases h0 : K < 0
            · rw [if_pos h0]
            · rw [if_neg h0, if_pos h]
        unfold init
        simp only [hA, if_true, hmk]
      · rw [if_neg hbad]
        have hK0 : 0 ≤ K := by omega
        have hKm : K.toNat ≤ maxAlloc := by omega
        have hcast : ((K.toNat : Nat) : Int) = K := Int.toNat_of_nonneg hK0
        have hmk : makeslice K = some (List.replicate K.toNat 0) := by
          rw [← hcast, makeslice_ok K.toNat hKm, hcast]
        obtain ⟨hlen, hget⟩ := fill_spec K.toNat (List.replicate K.toNat 0) (by simp)
        have hinit : init rnd Getenv files =
            some { random := hexEncodeToString ((List.range 4).map fun i => byte (rnd i)),
                   sizeResponse := some (fill K.toNat (List.replicate K.toNat 0)),
                   healthy := true, Getenv := Getenv, files := files } := by
          unfold init
          simp only [hA, if_true, hmk]
        refine ⟨_, _, hinit, rfl, ?_, ?_⟩
        · rw [hlen, hcast]
        · intro i hi
          rw [hlen] at hi
          exact hget i hi

/-! ## The idle timeout (C10) -/

/-- A failed `ParseDuration` returns the zero duration. -/
theorem ParseDuration_error_zero (s : String) :
    (ParseDuration s).2 = none ∨ (ParseDuration s).1 = 0 := by
  unfold ParseDuration
  cases parseDuration s with
  | ok d => exact Or.inl rfl
  | error e => exact Or.inr rfl

/-- C10: `main` assigns the duration parsed from `IDLE_TIMEOUT` to the idle timeout of the
server only when parsing fails; a failed parse yields the zero duration, so the configured
idle timeout is zero for every value of `IDLE_TIMEOUT`, also for one that parses as a
non-zero duration (`30s` parses as 30000000000 ns and leaves the timeout at zero). -/
theorem main_IdleTimeout (Getenv : String → String) :
    (main Getenv).1.IdleTimeout =
        (if (ParseDuration (Getenv "IDLE_TIMEOUT")).2 ≠ none
          then (ParseDuration (Getenv "IDLE_TIMEOUT")).1 else 0) ∧
    ((ParseDuration (Getenv "IDLE_TIMEOUT")).2 = none ∨
      (ParseDuration (Getenv "IDLE_TIMEOUT")).1 = 0) ∧
    (main Getenv).1.IdleTimeout = 0 ∧
    ParseDuration "30s" = (30000000000, none) ∧
    (main (fun name => if name = "IDLE_TIMEOUT" then "30s" else "")).1.IdleTimeout = 0 := by
  have hdef : (main Getenv).1.IdleTimeout =
      (if (ParseDuration (Getenv "IDLE_TIMEOUT")).2 ≠ none
        then (ParseDuration (Getenv "IDLE_TIMEOUT")).1 else 0) := by
    unfold main
    simp only []
    split_ifs <;> rfl
  refine ⟨hdef, ParseDuration_error_zero _, ?_, by decide, by decide⟩
  rw [hdef]
  rcases ParseDuration_error_zero (Getenv "IDLE_TIMEOUT") with h | h
  · rw [if_neg (by simp [h])]
  · rw [h]; simp

/-! ## The echo handler (C6) -/

/-- C6: for every request body B that is read without error, `PongHandler` responds with
status 200, body exactly `PONG` (the bytes 80, 79, 78, 71) and the header
`X-HelloHttp-Req-Body-Length` equal to the decimal representation of the length of B;
when reading the body fails, it responds with status 500 and an empty body. -/
theorem PongHandler_response (st : State) (path : String) (header : Header) (query : Values)
    (B : Bytes) :
    (∃ resp,
      (PongHandler st ResponseWriter.fresh
        { Path := path, Header := header, Query := query, Body := B, BodyErr := false }).response
        = some resp ∧
      resp.status = 200 ∧ resp.body = bytesOf "PONG" ∧
      resp.header.Get "X-HelloHttp-Req-Body-Length" = Nat.repr B.length ∧
      resp.header.Get "X-HelloHttp-Instance" = st.random) ∧
    bytesOf "PONG" = [80, 79, 78, 71] ∧
    (PongHandler st ResponseWriter.fresh
        { Path := path, Header := header, Query := query, Body := B, BodyErr := true }).response
      = some { status := 500, header := [], body := [] } := by
  have hpong : bytesOf "PONG" = [80, 79, 78, 71] := by decide
  have hkey : ("X-HelloHttp-Instance" != "X-HelloHttp-Req-Body-Length") = true := by decide
  have hkey2 : ("X-HelloHttp-Instance" == "X-HelloHttp-Req-Body-Length") = false := by decide
  refine ⟨⟨{ status := 200,
             header := [("X-HelloHttp-Req-Body-Length", Nat.repr B.length),
                        ("X-HelloHttp-Instance", st.random)],
             body := bytesOf "PONG" }, ?_, rfl, rfl, ?_, ?_⟩, hpong, ?_⟩
  · unfold PongHandler
    simp [hpong, hkey, Itoa, Result.response, ResponseWriter.Write, ResponseWriter.SetHeader,
      ResponseWriter.WriteHeader, ResponseWriter.fresh, ResponseWriter.finishRequest,
      Header.Set, bodyAllowedForStatus]
  · simp [Header.Get, List.lookup]
  · simp [Header.Get, List.lookup, hkey2]
  · unfold PongHandler
    simp [Result.response, ResponseWriter.WriteHeader, ResponseWriter.fresh,
      ResponseWriter.finishRequest]

/-! ## The instance header (C4) -/

/-- C4 at its failing inputs: `PongHandler` on a request whose body cannot be read answers
500 without any header, and `ClientHandler` on a request without `X-Req-URL` answers 400
without any header; both return before `X-HelloHttp-Instance` is set. -/
theorem instance_header_missing_on_early_return :
    (PongHandler sampleState ResponseWriter.fresh
        { Path := "/ping", Header := [], Query := [], Body := [], BodyErr := true }).response
      = some { status := 500, header := [], body := [] } ∧
    (ClientHandler sampleState sampleExtern ResponseWriter.fresh
        (sampleRequest "/client" [] [])).response
      = some { status := 400, header := [], body := bytesOf "missing X-Req-URL" } := by
  decide

/-! ## Routing (C5) -/

/-- The routes registered by `main`, whatever the environment. -/
theorem main_routes (Getenv : String → String) :
    (main Getenv).2 =
      [("/", HandlerFunc.PongHandler), ("/ping", HandlerFunc.PongHandler),
       ("/log", HandlerFunc.LogRequestHandler), ("/client", HandlerFunc.ClientHandler),
       ("/size", HandlerFunc.SizeHandler), ("/delay", HandlerFunc.DelayHandler),
       ("/exfil", HandlerFunc.ExfilHandler), ("/404", HandlerFunc.NotFoundHandler),
       ("/health", HandlerFunc.HealthHandler),
       ("/health/pass", HandlerFunc.HealthPassHandler),
       ("/health/fail", HandlerFunc.HealthFailHandler)] := rfl

/-- The canonical path starts with a slash. -/
theorem cleanPath_head (p : String) : (cleanPath p).toList.head? = some '/' := by
  unfold cleanPath
  dsimp only
  split_ifs <;> rfl

/-- Every rooted path is matched: by its own pattern, else by the pattern `/`. -/
theorem matchPath_rooted (Getenv : String → String) (q : String)
    (hq : q.toList.head? = some '/') :
    (∃ h, (main Getenv).2.lookup q = some h ∧ (main Getenv).2.matchPath q = some (h, q)) ∨
      ((main Getenv).2.lookup q = none ∧
        (main Getenv).2.matchPath q = some (HandlerFunc.PongHandler, "/")) := by
  cases hl : (main Getenv).2.lookup q with
  | some h =>
    left
    exact ⟨h, rfl, by unfold ServeMux.matchPath; rw [hl]⟩
  | none =>
    right
    refine ⟨rfl, ?_⟩
    have hpre : List.isPrefixOf ['/'] q.toList = true := by
      cases hc : q.toList with
      | nil => rw [hc] at hq; simp at hq
      | cons c cs =>
        rw [hc] at hq
        simp only [List.head?_cons, Option.some.injEq] at hq
        subst hq
        simp [List.isPrefixOf]
    unfold ServeMux.matchPath
    rw [hl, main_routes]
    simp only []
    have hfirst : decide (("/", HandlerFunc.PongHandler).1.toList.getLast? = some '/' ∧
        ("/", HandlerFunc.PongHandler).1.toList.isPrefixOf q.toList = true) = true := by
      rw [decide_eq_true_eq]
      exact ⟨by decide, hpre⟩
    rw [List.filter_cons, if_pos hfirst]
    have hrest : List.filter
        (fun e : String × HandlerFunc =>
          decide (e.1.toList.getLast? = some '/' ∧ e.1.toList.isPrefixOf q.toList = true))
        [("/ping", HandlerFunc.PongHandler),
         ("/log", HandlerFunc.LogRequestHandler), ("/client", HandlerFunc.ClientHandler),
         ("/size", HandlerFunc.SizeHandler), ("/delay", HandlerFunc.DelayHandler),
         ("/exfil", HandlerFunc.ExfilHandler), ("/404", HandlerFunc.NotFoundHandler),
         ("/health", HandlerFunc.HealthHandler),
         ("/health/pass", HandlerFunc.HealthPassHandler),
         ("/health/fail", HandlerFunc.HealthFailHandler)] = [] := by
      rw [List.filter_eq_nil_iff]
      have hall : ∀ e ∈ [("/ping", HandlerFunc.PongHandler),
          ("/log", HandlerFunc.LogRequestHandler), ("/client", HandlerFunc.ClientHandler),
          ("/size", HandlerFunc.SizeHandler), ("/delay", HandlerFunc.DelayHandler),
          ("/exfil", HandlerFunc.ExfilHandler), ("/404", HandlerFunc.NotFoundHandler),
          ("/health", HandlerFunc.HealthHandler),
          ("/health/pass", HandlerFunc.HealthPassHandler),
          ("/health/fail", HandlerFunc.HealthFailHandler)],
          e.1.toList.getLast? ≠ some '/' := by decide
      intro e he
      have hlast := hall e he
      rw [decide_eq_true_eq]
      exact fun hboth => hlast hboth.1
    rw [hrest]
    rfl

/-- C5, as stated, fails: `/foo` is none of the registered paths, yet `main` registered
`PongHandler` for the pattern `/`, which matches every path; the request is dispatched to
`PongHandler` and answered 200 with body `PONG`, not 404 with no body. -/
theorem routing_unregistered_path_counterexample :
    "/foo" ∉ ["/", "/ping", "/log", "/client", "/size", "/delay", "/exfil", "/404", "/health",
      "/health/pass", "/health/fail"] ∧
    (main (fun _ => "")).2.Handler "GET" "/foo" =
      (Route.handler HandlerFunc.PongHandler, "/") ∧
    (HandlerFunc.PongHandler.ServeHTTP sampleState sampleExtern ResponseWriter.fresh
        (sampleRequest "/foo" [] [])).response
      = some { status := 200,
               header := [("X-HelloHttp-Req-Body-Length", "0"),
                          ("X-HelloHttp-Instance", "00c0ffee")],
               body := bytesOf "PONG" } := by
  decide

/-- C5 (amended): the routes of `main` match the ten paths `/ping`, `/log`, `/client`,
`/size`, `/delay`, `/exfil`, `/404`, `/health`, `/health/pass`, `/health/fail` exactly,
each by its own handler, and the pattern `/` registered for `PongHandler` matches every
other path: for every request method, every request path in canonical form (so starting
with `/`) that is none of those ten is dispatched to `PongHandler`, which answers 200
with body `PONG` when the request body is read without error. -/
theorem routing_catch_all (Getenv : String → String) (method p : String)
    (hclean : cleanPath p = p)
    (hp : p ∉ ["/ping", "/log", "/client", "/size", "/delay", "/exfil", "/404", "/health",
      "/health/pass", "/health/fail"]) :
    (main Getenv).2.Handler method p = (Route.handler HandlerFunc.PongHandler, "/") ∧
    (∀ (st : State) (x : Extern) (header : Header) (query : Values) (B : Bytes),
      ∃ resp,
        (HandlerFunc.PongHandler.ServeHTTP st x ResponseWriter.fresh
          { Path := p, Header := header, Query := query, Body := B, BodyErr := false }).response
          = some resp ∧
        resp.status = 200 ∧ resp.body = bytesOf "PONG") ∧
    (∀ e ∈ (main Getenv).2, (main Getenv).2.Handler method e.1 = (Route.handler e.2, e.1)) := by
  refine ⟨?_, ?_, ?_⟩
  · have hhandler : (main Getenv).2.shouldRedirect p = false ∧
        (main Getenv).2.handler p = (Route.handler HandlerFunc.PongHandler, "/") := by
      by_cases hroot : p = "/"
      · subst hroot
        rw [main_routes]
        decide
      · have hhead : p.toList.head? = some '/' := by rw [← hclean]; exact cleanPath_head p
        simp only [List.mem_cons, List.mem_singleton, List.not_mem_nil, or_false, not_or] at hp
        obtain ⟨h1, h2, h3, h4, h5, h6, h7, h8, h9, h10⟩ := hp
        have hlook : (main Getenv).2.lookup p = none := by
          rw [List.lookup_eq_none_iff, main_routes]
          intro e he
          simp only [List.mem_cons, List.mem_singleton, List.not_mem_nil, or_false] at he
          rcases he with he | he | he | he | he | he | he | he | he | he | he <;>
            subst he <;> simp [*]
        have hmatch : (main Getenv).2.matchPath p = some (HandlerFunc.PongHandler, "/") := by
          rcases matchPath_rooted Getenv p hhead with ⟨h, hl, _⟩ | ⟨_, hm⟩
          · rw [hlook] at hl
            exact absurd hl (by simp)
          · exact hm
        have hlen : p.length ≠ 0 := by
          intro h0
          have : p.toList = [] := List.length_eq_zero.mp h0
          rw [this] at hhead
          simp at hhead
        have hslash : (main Getenv).2.lookup (p ++ "/") = none := by
          have hlast : (p ++ "/").toList.getLast? = some '/' := by
            simp [String.toList]
          have hall : ∀ e ∈ [("/ping", HandlerFunc.PongHandler),
              ("/log", HandlerFunc.LogRequestHandler), ("/client", HandlerFunc.ClientHandler),
              ("/size", HandlerFunc.SizeHandler), ("/delay", HandlerFunc.DelayHandler),
              ("/exfil", HandlerFunc.ExfilHandler), ("/404", HandlerFunc.NotFoundHandler),
              ("/health", HandlerFunc.HealthHandler),
              ("/health/pass", HandlerFunc.HealthPassHandler),
              ("/health/fail", HandlerFunc.HealthFailHandler)],
              e.1.toList.getLast? ≠ some '/' := by decide
          rw [List.lookup_eq_none_iff, main_routes]
          intro e he
          rw [bne_iff_ne]
          intro heq
          rw [List.mem_cons] at he
          rcases he with he | he
          · subst he
            have hl := congrArg String.length heq
            rw [String.length_append] at hl
            exact hlen (by
              have h1 : ("/" : String).length = 1 := by decide
              simp only [h1] at hl
              omega)
          · exact hall e he (by rw [← heq]; exact hlast)
        constructor
        · unfold ServeMux.shouldRedirect
          simp only [hlook, hslash, Option.isSome_none, Bool.false_eq_true, if_false, hlen]
        · unfold ServeMux.handler
          rw [hmatch]
    unfold ServeMux.Handler
    by_cases hm : method = "CONNECT"
    · simp only [hm, if_true, hhandler.1, Bool.false_eq_true, if_false, hhandler.2]
    · simp only [hm, if_false, hclean, hhandler.1, Bool.false_eq_true, ne_eq,
        not_true_eq_false, hhandler.2]
  · intro st x header query B
    have hpong : bytesOf "PONG" ≠ [] := by decide
    have hkey : ("X-HelloHttp-Instance" != "X-HelloHttp-Req-Body-Length") = true := by decide
    refine ⟨{ status := 200,
              header := [("X-HelloHttp-Req-Body-Length", Nat.repr B.length),
                         ("X-HelloHttp-Instance", st.random)],
              body := bytesOf "PONG" }, ?_, rfl, rfl⟩
    simp [HandlerFunc.ServeHTTP, PongHandler, hpong, hkey, Itoa, Result.response,
      ResponseWriter.Write, ResponseWriter.SetHeader, ResponseWriter.WriteHeader,
      ResponseWriter.fresh, ResponseWriter.finishRequest, Header.Set, bodyAllowedForStatus]
  · have hexact : ∀ e ∈ (main Getenv).2,
        (main Getenv).2.shouldRedirect e.1 = false ∧ cleanPath e.1 = e.1 ∧
        (main Getenv).2.handler e.1 = (Route.handler e.2, e.1) := by
      rw [main_routes]
      decide
    intro e he
    obtain ⟨hr, hc, hh⟩ := hexact e he
    unfold ServeMux.Handler
    by_cases hm : method = "CONNECT"
    · simp only [hm, if_true, hr, Bool.false_eq_true, if_false, hh]
    · simp only [hm, if_false, hc, hr, Bool.false_eq_true, ne_eq, not_true_eq_false, hh]

/-- Witness for C5 (amended) at `GET /foo`. -/
theorem routing_catch_all_witness :
    (cleanPath "/foo" = "/foo" ∧
      "/foo" ∉ ["/ping", "/log", "/client", "/size", "/delay", "/exfil", "/404", "/health",
        "/health/pass", "/health/fail"]) ∧
    (main (fun _ => "")).2.Handler "GET" "/foo" =
      (Route.handler HandlerFunc.PongHandler, "/") ∧
    ∃ resp,
      (HandlerFunc.PongHandler.ServeHTTP sampleState sampleExtern ResponseWriter.fresh
        { Path := "/foo", Header := [], Query := [], Body := [], BodyErr := false }).response
        = some resp ∧
      resp.status = 200 ∧ resp.body = bytesOf "PONG" :=
  ⟨by decide,
   (routing_catch_all (fun _ => "") "GET" "/foo" (by decide) (by decide)).1,
   (routing_catch_all (fun _ => "") "GET" "/foo" (by decide) (by decide)).2.1
     sampleState sampleExtern [] [] []⟩

/-! ## The exfiltration handler (C8) -/

/-- C8: over the files of the working directory as a map from names to bytes: for every
non-empty `X-Filename` F, every request body B and every prior state of the files in which
opening and copying succeed, after `ExfilHandler` the file F contains exactly B whatever it
contained before, every other file is unchanged, and the response is 200 with the instance
header and no body; when `X-Filename` is absent the response is 400 with an empty body
and the files are unchanged. -/
theorem ExfilHandler_files :
    (∀ (st : State) (x : Extern) (r : Request) (F : String),
      r.Header.Get "X-Filename" = F → F ≠ "" → x.openFails F = false → r.BodyErr = false →
      (∀ k, x.writeFailsAt = some k → r.Body.length ≤ k) →
      (ExfilHandler st x ResponseWriter.fresh r).st.files F = some r.Body ∧
      (∀ G, G ≠ F → (ExfilHandler st x ResponseWriter.fresh r).st.files G = st.files G) ∧
      (ExfilHandler st x ResponseWriter.fresh r).response =
        some { status := 200, header := [("X-HelloHttp-Instance", st.random)], body := [] }) ∧
    (∀ (st : State) (x : Extern) (r : Request),
      r.Header.Get "X-Filename" = "" →
      (ExfilHandler st x ResponseWriter.fresh r).response =
        some { status := 400, header := [("X-HelloHttp-Instance", st.random)], body := [] } ∧
      (ExfilHandler st x ResponseWriter.fresh r).st.files = st.files) := by
  constructor
  · intro st x r F hF hne hopen hbody hwrite
    have hcopy : ioCopy x r = (r.Body, false) := by
      unfold ioCopy
      cases hk : x.writeFailsAt with
      | none => simp only [hbody]
      | some k =>
        have := hwrite k hk
        simp only [hbody]
        rw [if_neg (by omega)]
    unfold ExfilHandler
    simp only [hF, hne, if_false, hopen, Bool.false_eq_true, hcopy]
    refine ⟨by simp, ?_, ?_⟩
    · intro G hG
      simp [hG]
    · simp [Result.response, ResponseWriter.SetHeader, ResponseWriter.WriteHeader,
        ResponseWriter.fresh, ResponseWriter.finishRequest, Header.Set]
  · intro st x r hF
    unfold ExfilHandler
    simp only [hF, if_true]
    refine ⟨?_, trivial⟩
    simp [Result.response, ResponseWriter.SetHeader, ResponseWriter.WriteHeader,
      ResponseWriter.fresh, ResponseWriter.finishRequest, Header.Set]

/-- Witness for C8: `out.txt` holding `old` is replaced by the body `hello`
(104, 101, 108, 108, 111), and a request without `X-Filename` is refused. -/
theorem ExfilHandler_files_witness :
    ((sampleRequest "/exfil" [("X-Filename", "out.txt")] [104, 101, 108, 108, 111]).Header.Get
        "X-Filename" = "out.txt" ∧ "out.txt" ≠ "" ∧ sampleExtern.openFails "out.txt" = false ∧
      (sampleRequest "/exfil" [("X-Filename", "out.txt")] [104, 101, 108, 108, 111]).BodyErr
        = false ∧
      (sampleRequest "/exfil" [] []).Header.Get "X-Filename" = "") ∧
    (ExfilHandler
        { sampleState with
          files := fun name => if name = "out.txt" then some [111, 108, 100] else none }
        sampleExtern ResponseWriter.fresh
        (sampleRequest "/exfil" [("X-Filename", "out.txt")] [104, 101, 108, 108, 111])).st.files
      "out.txt" = some [104, 101, 108, 108, 111] ∧
    (ExfilHandler sampleState sampleExtern ResponseWriter.fresh
        (sampleRequest "/exfil" [] [])).response =
      some { status := 400, header := [("X-HelloHttp-Instance", sampleState.random)],
             body := [] } :=
  ⟨by decide,
   (ExfilHandler_files.1
      { sampleState with
        files := fun name => if name = "out.txt" then some [111, 108, 100] else none }
      sampleExtern
      (sampleRequest "/exfil" [("X-Filename", "out.txt")] [104, 101, 108, 108, 111]) "out.txt"
      (by decide) (by decide) (by decide) (by decide)
      (fun k hk => by simp [sampleExtern] at hk)).1,
   (ExfilHandler_files.2 sampleState sampleExtern (sampleRequest "/exfil" [] [])
      (by decide)).1⟩

/-! ## The health flag (C3) -/

/-- Only `HealthPassHandler` and `HealthFailHandler` write the health flag. -/
theorem ServeHTTP_healthy (h : HandlerFunc) (st : State) (x : Extern) (w : ResponseWriter)
    (r : Request) (h1 : h ≠ HandlerFunc.HealthPassHandler)
    (h2 : h ≠ HandlerFunc.HealthFailHandler) :
    (h.ServeHTTP st x w r).st.healthy = st.healthy := by
  cases h with
  | PongHandler =>
    simp only [HandlerFunc.ServeHTTP, PongHandler]
    split_ifs <;> rfl
  | LogRequestHandler => rfl
  | ClientHandler =>
    simp only [HandlerFunc.ServeHTTP, ClientHandler]
    split_ifs
    · rfl
    · split <;> rfl
  | SizeHandler =>
    simp only [HandlerFunc.ServeHTTP, SizeHandler]
    split_ifs
    all_goals first | rfl | (split <;> rfl)
  | DelayHandler => rfl
  | ExfilHandler =>
    simp only [HandlerFunc.ServeHTTP, ExfilHandler]
    split_ifs <;> rfl
  | NotFoundHandler => rfl
  | HealthHandler =>
    simp only [HandlerFunc.ServeHTTP, HealthHandler]
    split_ifs <;> rfl
  | HealthPassHandler => exact absurd rfl h1
  | HealthFailHandler => exact absurd rfl h2

/-- No handler writes the identity, the precomputed buffer or the environment. -/
theorem ServeHTTP_frame (h : HandlerFunc) (st : State) (x : Extern) (w : ResponseWriter)
    (r : Request) :
    (h.ServeHTTP st x w r).st.random = st.random ∧
    (h.ServeHTTP st x w r).st.sizeResponse = st.sizeResponse ∧
    (h.ServeHTTP st x w r).st.Getenv = st.Getenv := by
  cases h with
  | PongHandler =>
    simp only [HandlerFunc.ServeHTTP, PongHandler]
    split_ifs <;> exact ⟨rfl, rfl, rfl⟩
  | LogRequestHandler => exact ⟨rfl, rfl, rfl⟩
  | ClientHandler =>
    simp only [HandlerFunc.ServeHTTP, ClientHandler]
    split_ifs
    · exact ⟨rfl, rfl, rfl⟩
    · split <;> exact ⟨rfl, rfl, rfl⟩
  | SizeHandler =>
    simp only [HandlerFunc.ServeHTTP, SizeHandler]
    split_ifs
    all_goals first | exact ⟨rfl, rfl, rfl⟩ | (split <;> exact ⟨rfl, rfl, rfl⟩)
  | DelayHandler => exact ⟨rfl, rfl, rfl⟩
  | ExfilHandler =>
    simp only [HandlerFunc.ServeHTTP, ExfilHandler]
    split_ifs <;> exact ⟨rfl, rfl, rfl⟩
  | NotFoundHandler => exact ⟨rfl, rfl, rfl⟩
  | HealthHandler =>
    simp only [HandlerFunc.ServeHTTP, HealthHandler]
    split_ifs <;> exact ⟨rfl, rfl, rfl⟩
  | HealthPassHandler => exact ⟨rfl, rfl, rfl⟩
  | HealthFailHandler => exact ⟨rfl, rfl, rfl⟩

/-- The identity is the same after every run. -/
theorem serveAll_random (calls : List Call) :
    ∀ st : State, (serveAll st calls).random = st.random := by
  induction calls with
  | nil => intro st; rfl
  | cons c cs ih =>
    intro st
    unfold serveAll at *
    simp only [List.foldl_cons]
    rw [ih, (ServeHTTP_frame c.h st c.x _ c.r).1]

/-- The state `init` hands over has the health flag set. -/
theorem init_healthy (rnd : Nat → Nat) (Getenv : String → String)
    (files : String → Option Bytes) (st0 : State) (h : init rnd Getenv files = some st0) :
    st0.healthy = true := by
  unfold init at h
  dsimp only at h
  split_ifs at h
  · split at h
    · exact absurd h (by simp)
    · simp only [Option.some.injEq] at h
      rw [← h]
  · simp only [Option.some.injEq] at h
    rw [← h]

/-- Invariant of a run: the flag is false exactly when the most recent write was made by
`HealthFailHandler`. -/
theorem serveAll_invariant (calls : List Call) :
    ∀ (st : State) (last : Option HandlerFunc),
      st.healthy = decide (last ≠ some HandlerFunc.HealthFailHandler) →
      (calls.foldl (fun st c => (c.h.ServeHTTP st c.x ResponseWriter.fresh c.r).st) st).healthy
        = decide (calls.foldl
            (fun last c =>
              if c.h = HandlerFunc.HealthPassHandler ∨ c.h = HandlerFunc.HealthFailHandler
              then some c.h else last)
            last ≠ some HandlerFunc.HealthFailHandler) := by
  induction calls with
  | nil => intro st last h; exact h
  | cons c cs ih =>
    intro st last h
    simp only [List.foldl_cons]
    apply ih
    by_cases hp : c.h = HandlerFunc.HealthPassHandler
    · rw [hp]
      simp [HandlerFunc.ServeHTTP, HealthPassHandler]
    · by_cases hf : c.h = HandlerFunc.HealthFailHandler
      · rw [hf]
        simp [HandlerFunc.ServeHTTP, HealthFailHandler]
      · rw [ServeHTTP_healthy c.h st c.x _ c.r hp hf, h]
        simp [hp, hf]

/-- C3: the health flag starts true; after every sequence of requests to the registered
handlers, a request to `HealthHandler` is answered 500 if the most recent request of the
sequence to `HealthPassHandler` or `HealthFailHandler` went to `HealthFailHandler`, and 200
otherwise (also when neither was called); `HealthHandler` leaves the flag unchanged, and so
does every handler other than `HealthPassHandler` and `HealthFailHandler`. -/
theorem health_last_writer_wins (rnd : Nat → Nat) (Getenv : String → String)
    (files : String → Option Bytes) (st0 : State)
    (hinit : init rnd Getenv files = some st0) (calls : List Call) (r : Request) :
    st0.healthy = true ∧
    (HealthHandler (serveAll st0 calls) ResponseWriter.fresh r).response =
      some { status :=
               if lastHealthWrite calls = some HandlerFunc.HealthFailHandler then 500 else 200,
             header := [("X-HelloHttp-Instance", st0.random)], body := [] } ∧
    (HealthHandler (serveAll st0 calls) ResponseWriter.fresh r).st.healthy =
      (serveAll st0 calls).healthy ∧
    (∀ (h : HandlerFunc) (st : State) (x : Extern) (w : ResponseWriter) (q : Request),
      h ≠ HandlerFunc.HealthPassHandler → h ≠ HandlerFunc.HealthFailHandler →
      (h.ServeHTTP st x w q).st.healthy = st.healthy) := by
  have h0 := init_healthy rnd Getenv files st0 hinit
  have hinv := serveAll_invariant calls st0 none (by rw [h0]; simp)
  have hrandom : (serveAll st0 calls).random = st0.random := serveAll_random calls st0
  refine ⟨h0, ?_, ?_, ?_⟩
  · unfold HealthHandler
    by_cases hl : lastHealthWrite calls = some HandlerFunc.HealthFailHandler
    · have hh : (serveAll st0 calls).healthy = false := by
        unfold serveAll
        rw [hinv]
        unfold lastHealthWrite at hl
        simp [hl]
      simp [hh, hl, hrandom, Result.response, ResponseWriter.SetHeader,
        ResponseWriter.WriteHeader, ResponseWriter.fresh, ResponseWriter.finishRequest,
        Header.Set]
    · have hh : (serveAll st0 calls).healthy = true := by
        unfold serveAll
        rw [hinv]
        unfold lastHealthWrite at hl
        simp [hl]
      simp [hh, hl, hrandom, Result.response, ResponseWriter.SetHeader,
        ResponseWriter.WriteHeader, ResponseWriter.fresh, ResponseWriter.finishRequest,
        Header.Set]
  · unfold HealthHandler
    split_ifs <;> rfl
  · intro h st x w q h1 h2
    exact ServeHTTP_healthy h st x w q h1 h2

/-- Witness for C3: after `/health/pass`, `/size`, `/health/fail`,
`/ping` the health check answers 500. -/
theorem health_last_writer_wins_witness :
    init (fun _ => 0) (fun _ => "") (fun _ => none) =
      some { random := "00000000", sizeResponse := none, healthy := true,
             Getenv := fun _ => "", files := fun _ => none } ∧
    (HealthHandler
        (serveAll
          { random := "00000000", sizeResponse := none, healthy := true,
            Getenv := fun _ => "", files := fun _ => none }
          [{ h := HandlerFunc.HealthPassHandler, x := sampleExtern,
             r := sampleRequest "/health/pass" [] [] },
           { h := HandlerFunc.SizeHandler, x := sampleExtern, r := sizeRequest "-1" },
           { h := HandlerFunc.HealthFailHandler, x := sampleExtern,
             r := sampleRequest "/health/fail" [] [] },
           { h := HandlerFunc.PongHandler, x := sampleExtern,
             r := sampleRequest "/ping" [] [] }])
        ResponseWriter.fresh (sampleRequest "/health" [] [])).response =
      some { status := 500, header := [("X-HelloHttp-Instance", "00000000")], body := [] } :=
  ⟨rfl,
   (health_last_writer_wins (fun _ => 0) (fun _ => "") (fun _ => none)
      { random := "00000000", sizeResponse := none, healthy := true,
        Getenv := fun _ => "", files := fun _ => none }
      rfl
      [{ h := HandlerFunc.HealthPassHandler, x := sampleExtern,
         r := sampleRequest "/health/pass" [] [] },
       { h := HandlerFunc.SizeHandler, x := sampleExtern, r := sizeRequest "-1" },
       { h := HandlerFunc.HealthFailHandler, x := sampleExtern,
         r := sampleRequest "/health/fail" [] [] },
       { h := HandlerFunc.PongHandler, x := sampleExtern,
         r := sampleRequest "/ping" [] [] }]
      (sampleRequest "/health" [] [])).2.1⟩

end HelloHttp
